import Mathlib

set_option autoImplicit false

/-
Shallow embedding of the AutoTransform repository (python sources under
src/), covering the comparison-condition hierarchy, the Item component
factory, the GithubUtils per-repo cache, the script-backed Input, the
codemod CLI polling loop, and the Input factory lookup.
-/

/- ===== step/condition: ComparisonType and the ComparisonCondition
   hierarchy (src/src/python/autotransform/step/condition/base.py) ===== -/

/-- The ComparisonType enum from autotransform/step/condition/comparison.py,
as referenced by base.py. -/
inductive ComparisonType where
  | EQUAL
  | NOT_EQUAL
  | GREATER_THAN
  | GREATER_THAN_OR_EQUAL
  | LESS_THAN
  | LESS_THAN_OR_EQUAL
  deriving DecidableEq, Repr, Fintype

/-- ComparisonCondition.valid_comparisons: returns the set
containing EQUAL and NOT_EQUAL. -/
def ComparisonCondition.valid_comparisons : Finset ComparisonType :=
  {ComparisonType.EQUAL, ComparisonType.NOT_EQUAL}

/-- SortableComparisonCondition.valid_comparisons: returns the set of all
six comparison types. -/
def SortableComparisonCondition.valid_comparisons : Finset ComparisonType :=
  {ComparisonType.EQUAL, ComparisonType.NOT_EQUAL,
   ComparisonType.GREATER_THAN, ComparisonType.GREATER_THAN_OR_EQUAL,
   ComparisonType.LESS_THAN, ComparisonType.LESS_THAN_OR_EQUAL}

/-- A constructed ComparisonCondition value: the comparison to perform and
the value to compare against. A concrete condition variant is characterised
by its valid_comparisons override, passed separately to construction. -/
structure ComparisonCondition (T : Type) where
  comparison : ComparisonType
  value : T
  deriving DecidableEq, Repr

/-- The pydantic field validator comparison_type_is_valid: raises ValueError
when the comparison is not in the class's valid_comparisons set, otherwise
returns the comparison unmodified. -/
def comparison_type_is_valid (valid : Finset ComparisonType)
    (v : ComparisonType) : Except String ComparisonType :=
  if v ∉ valid then .error "can not perform comparison" else .ok v

/-- Pydantic model construction of a ComparisonCondition: the field
validator runs on the comparison field at construction time, so an invalid
comparison fails construction rather than producing an instance. -/
def ComparisonCondition.construct {T : Type} (valid : Finset ComparisonType)
    (comparison : ComparisonType) (value : T) :
    Except String (ComparisonCondition T) :=
  match comparison_type_is_valid valid comparison with
  | .error e => .error e
  | .ok c => .ok ⟨c, value⟩

/- ===== Item component factory. Modelled from the spec: the Item classes
   (autotransform/item/base.py, autotransform/item/file.py) and the generic
   ComponentFactory (autotransform/util/component.py) are not under src/;
   only tests/item/test_factory.py is. The model follows the spec: bundles
   are maps with a "name" discriminant plus the set fields, decoding
   dispatches on the registered name, equality is structural by
   key + extra_data, and custom components live under the reserved
   "custom/" namespace. ===== -/

/-- The ItemName enum: the two registered Item variants, with their string
values as used in bundles. -/
inductive ItemName where
  | FILE
  | GENERIC
  deriving DecidableEq, Repr, Fintype

/-- Modelled from the spec: the string value each ItemName enum member
carries in a serialized bundle. -/
def ItemName.toStr : ItemName → String
  | .FILE => "file"
  | .GENERIC => "generic"

/-- Modelled from the spec: parsing a bundle name string back into the
ItemName enum; unregistered strings are rejected. -/
def ItemName.ofStr (s : String) : Option ItemName :=
  if s = "file" then some .FILE
  else if s = "generic" then some .GENERIC
  else none

/-- Modelled from the spec: an Item instance has a key and an optional
extra_data mapping (string keys to opaque values, modelled as strings);
extra_data defaults to unset. Equality is structural. -/
structure Item where
  key : String
  extra_data : Option (List (String × String)) := none
  deriving DecidableEq, Repr

/-- Modelled from the spec: an instance of a registered Item variant is the
variant (the class, carrying its declared name) together with its fields.
FileItem adds no fields over Item. -/
structure ItemComponent where
  name : ItemName
  item : Item
  deriving DecidableEq, Repr

/-- A field value inside a serialized bundle: a string or a string map. -/
inductive FieldValue where
  | str (s : String)
  | map (m : List (String × String))
  deriving DecidableEq, Repr

/-- Modelled from the spec: component.bundle() serializes an instance to a
map holding the "name" discriminant, the key, and the extra_data field only
when it is set. -/
def ItemComponent.bundle (c : ItemComponent) : List (String × FieldValue) :=
  [("name", FieldValue.str c.name.toStr), ("key", FieldValue.str c.item.key)] ++
    (match c.item.extra_data with
     | none => []
     | some m => [("extra_data", FieldValue.map m)])

/-- Modelled from the spec: FACTORY.get_instance decodes a bundle by looking
up the "name" discriminant among the registered variants and constructing
that variant from the remaining fields; a missing or unregistered name, or
a missing key, fails decoding. -/
def FACTORY.get_instance (b : List (String × FieldValue)) : Option ItemComponent :=
  match b.lookup "name" with
  | some (FieldValue.str s) =>
    match ItemName.ofStr s with
    | some n =>
      match b.lookup "key" with
      | some (FieldValue.str k) =>
        let ed : Option (List (String × String)) :=
          match b.lookup "extra_data" with
          | some (FieldValue.map m) => some m
          | _ => none
        some ⟨n, ⟨k, ed⟩⟩
      | _ => none
    | none => none
  | _ => none

/-- The concrete classes registered in the Item FACTORY, carrying their
declared class-level name. -/
inductive ItemClass where
  | ItemCls
  | FileItemCls
  deriving DecidableEq, Repr

/-- The declared name classvar of each registered Item class. -/
def ItemClass.name : ItemClass → ItemName
  | .ItemCls => .GENERIC
  | .FileItemCls => .FILE

/-- Modelled from the spec: the FACTORY registration map from enum names to
component classes. -/
def FACTORY.components : List (ItemName × ItemClass) :=
  [(ItemName.FILE, ItemClass.FileItemCls), (ItemName.GENERIC, ItemClass.ItemCls)]

/-- FACTORY.get_components returns the set of registered names. -/
def FACTORY.get_components : Finset ItemName :=
  (FACTORY.components.map Prod.fst).toFinset

/-- FACTORY.get_class for a registered enum name. -/
def FACTORY.get_class (n : ItemName) : Option ItemClass :=
  FACTORY.components.lookup n

/-- Modelled from the spec: a user-extension (custom) component, carrying
its declared class name. -/
structure CustomComponent where
  name : String
  deriving DecidableEq, Repr

/-- Modelled from the spec: FACTORY.get_custom_components returns the names
of the user-extension components, namespaced under the reserved "custom/"
namespace. -/
def FACTORY.get_custom_components (customMap : List CustomComponent) : List String :=
  customMap.map (fun c => "custom/" ++ c.name)

/-- Modelled from the spec: FACTORY.get_class for a custom name resolves it
back to the user-extension component whose namespaced declared name matches. -/
def FACTORY.get_custom_class (customMap : List CustomComponent) (nm : String) :
    Option CustomComponent :=
  customMap.find? (fun c => "custom/" ++ c.name == nm)

/- ===== GithubUtils per-repo cache
   (src/src/python/autotransform/util/github.py) ===== -/

/-- The GithubUtils.__instances cache: fully qualified repo name to the
stored instance (instances identified by a numeric id in the model). -/
abbrev GHCache := List (String × Nat)

/-- GithubUtils.__init__: asserts the repo is not already in the
__instances cache (AssertionError otherwise), then builds the instance. -/
def GithubUtils.init (cache : GHCache) (repo : String) (freshId : Nat) :
    Except String Nat :=
  if (cache.lookup repo).isSome then .error "AssertionError" else .ok freshId

/-- GithubUtils.get: returns
__instances.setdefault(repo, GithubUtils(repo)). Python evaluates the
default argument eagerly, so the constructor (with its assert) runs before
setdefault consults the cache; only if construction succeeds does
setdefault insert-or-return. Returns the possibly-updated cache and the
returned instance. -/
def GithubUtils.get (cache : GHCache) (repo : String) (freshId : Nat) :
    Except String (GHCache × Nat) :=
  match GithubUtils.init cache repo freshId with
  | .error e => .error e
  | .ok inst =>
    match cache.lookup repo with
    | some cached => .ok (cache, cached)
    | none => .ok (cache ++ [(repo, inst)], inst)

/- ===== Script-backed Input
   (src/src/python/autotransform/input/script.py) ===== -/

/-- The result of the subprocess.run call: return code and captured
stdout/stderr. -/
structure ProcResult where
  returncode : Int
  stdout : String
  stderr : String
  deriving Repr

/-- subprocess check_returncode: raises CalledProcessError when the return
code is nonzero, otherwise does nothing. -/
def ProcResult.check_returncode (p : ProcResult) : Except String Unit :=
  if p.returncode ≠ 0 then .error "CalledProcessError" else .ok ()

/-- The configured fields of the script Input that the visible fragment
uses: the timeout handed to subprocess.run and whether the command signals
out-of-band output through a result file. -/
structure ScriptInput where
  timeout : Nat
  uses_result_file : Bool

/-- ScriptInput.get_items, embedding the fragment in src/: run the replaced
command with capture_output and timeout=self.timeout, log stdout/stderr,
call check_returncode (raising on nonzero exit), then parse items from the
result file or from stripped stdout and instantiate them through the item
factory. The process runner, the result-file contents, and the JSON
parse/instantiate step are passed as oracles. -/
def ScriptInput.get_items (inp : ScriptInput) (runProc : Nat → ProcResult)
    (resultFileContents : String)
    (parseItems : String → Option (List ItemComponent)) :
    Except String (List ItemComponent) :=
  let proc := runProc inp.timeout
  match proc.check_returncode with
  | .error e => .error e
  | .ok () =>
    let raw := if inp.uses_result_file then resultFileContents
               else proc.stdout.trim
    match parseItems raw with
    | none => .error "JSONDecodeError"
    | some items => .ok items

/- ===== Input factory (src/autotransform/input/factory.py) ===== -/

/-- The InputType enum. Modelled from the spec: autotransform/input/type.py
is not under src/; the spec names the directory-walk and script-backed
Input variants. -/
inductive InputType where
  | DIRECTORY
  | SCRIPT
  deriving DecidableEq, Repr

/-- A constructed Input instance: the variant it was built as plus its
params (opaque in the model). -/
structure InputInst where
  type : InputType
  params : List (String × String)
  deriving DecidableEq, Repr

/-- DirectoryInput.from_data, abstracted: builds a DirectoryInput from the
bundle params. -/
def DirectoryInput.from_data (params : List (String × String)) : InputInst :=
  ⟨InputType.DIRECTORY, params⟩

/-- The InputFactory._getters registration map: only DIRECTORY is
registered. -/
def InputFactory.getters :
    List (InputType × (List (String × String) → InputInst)) :=
  [(InputType.DIRECTORY, DirectoryInput.from_data)]

/-- A serialized Input bundle: its "type" discriminant and params. -/
structure InputBundle where
  type : InputType
  params : List (String × String)

/-- InputFactory.get: _getters[bundle type](bundle params). A dict lookup
on an unregistered key raises KeyError before any constructor runs. -/
def InputFactory.get (b : InputBundle) : Except String InputInst :=
  match InputFactory.getters.lookup b.type with
  | none => .error "KeyError"
  | some f => .ok (f b.params)

/- ===== create_workflow_dispatch
   (src/src/python/autotransform/util/github.py) ===== -/

/-- A workflow run as returned by the list_workflow_runs host-API call. -/
structure WorkflowRun where
  html_url : String
  deriving DecidableEq, Repr

/-- The outcome of a host-API call: a value, or an HTTPError raised at the
boundary. -/
inductive ApiOutcome (α : Type) where
  | ok (a : α)
  | httpError
  deriving DecidableEq, Repr

/-- GithubUtils.create_workflow_dispatch: dispatches the workflow, sleeps a
short settle delay (2s), then lists the matching workflow_dispatch runs for
the actor/branch in the last day and returns the first run's html_url, or
the empty string when no run matches. The except-handler body is cut off in
src/; modelled from the spec: an HTTPError raised anywhere inside the try
block is caught and degrades to an absent (None) return value rather than
raising to the caller. The two API calls are passed as oracle outcomes. -/
def GithubUtils.create_workflow_dispatch (dispatchOutcome : ApiOutcome Unit)
    (listedRuns : ApiOutcome (List WorkflowRun)) : Option String :=
  match dispatchOutcome with
  | .httpError => none
  | .ok () =>
    match listedRuns with
    | .httpError => none
    | .ok [] => some ""
    | .ok (r :: _) => some r.html_url

/- ===== codemod CLI (src/autotransform/codemod.py) ===== -/

/-- Extensions.has_value. Modelled from the spec: filter/extension.py is
not under src/; the known enum values are abstracted as a list of extension
strings. -/
def Extensions.has_value (known : List String) (s : String) : Bool :=
  known.contains s

/-- The extension-handling block of main: when --extensions is supplied it
is split on commas (the string-splitting itself is CLI parsing, out of
scope per the spec, so the argument is modelled as the list of
comma-separated entries), each entry is prefixed with ".", every prefixed
entry is asserted to be a known Extensions value (AssertionError aborts
main otherwise), and one ExtensionFilter over the prefixed entries is
appended; when --extensions is absent no filter is added. -/
def build_extension_filters (known : List String)
    (extensions : Option (List String)) :
    Except String (List (List String)) :=
  match extensions with
  | none => .ok []
  | some entries =>
    let exts := entries.map (fun e => "." ++ e)
    if exts.all (fun e => Extensions.has_value known e) then .ok [exts]
    else .error "AssertionError"

/-- Modelled from the spec: an ExtensionFilter keeps exactly the items
whose key ends with one of its extensions; a Schema's filter list is
evaluated as a logical AND across the list. -/
def apply_filters (filters : List (List String)) (items : List String) :
    List String :=
  items.filter (fun it => filters.all (fun exts => exts.any (fun e => it.endsWith e)))

/-- The discovery-and-filter phase of main as the controller runs it: the
extension block runs first (its assert aborting main before any input
discovery), then the discovered items pass through the filter list. -/
def codemod_discover (known : List String) (extensions : Option (List String))
    (discovered : List String) : Except String (List String) :=
  match build_extension_filters known extensions with
  | .error e => .error e
  | .ok filters => .ok (apply_filters filters discovered)

/-- The controller polling loop of main: while not runner.is_finished() and
time.time() <= start_time + timeout, sleep 1s. Time is modelled in whole
seconds, advancing by one per iteration; is_finished is an oracle over the
current time. Returns the time at which the loop exits. -/
def poll_loop (is_finished : Nat → Bool) (deadline : Nat) (t : Nat) : Nat :=
  if ¬ is_finished t ∧ t ≤ deadline then poll_loop is_finished deadline (t + 1)
  else t
termination_by deadline + 1 - t
decreasing_by omega

/-- The outcome of main: the time the polling loop exited and whether
runner.kill() was invoked. -/
structure RunOutcome where
  exit_time : Nat
  killed : Bool
  deriving DecidableEq, Repr

/-- The run phase of main: runner.start(), the polling loop with the fixed
timeout of 30 seconds, then runner.kill() unconditionally. -/
def codemod_run (is_finished : Nat → Bool) (start_time : Nat) : RunOutcome :=
  let timeout := 30
  let exit := poll_loop is_finished (start_time + timeout) start_time
  ⟨exit, true⟩

/- ===================== Theorems ===================== -/

/-- C8: ComparisonCondition.valid_comparisons is exactly the two-element
set of EQUAL and NOT_EQUAL, while SortableComparisonCondition's
valid_comparisons is the full set of all six comparison types. -/
theorem valid_comparisons_exact :
    (∀ c : ComparisonType, c ∈ ComparisonCondition.valid_comparisons ↔
      c = ComparisonType.EQUAL ∨ c = ComparisonType.NOT_EQUAL) ∧
    SortableComparisonCondition.valid_comparisons = Finset.univ := by
  decide

/-- C3: for every ComparisonCondition variant (characterised by its
valid_comparisons set) and every comparison outside that set, construction
fails with the validator's ValueError and never yields a condition
instance, so the failure is not deferred to check/evaluation time. -/
theorem comparison_condition_invalid_rejected {T : Type}
    (valid : Finset ComparisonType) (v : ComparisonType) (value : T)
    (h : v ∉ valid) :
    ComparisonCondition.construct valid v value =
      .error "can not perform comparison" ∧
    ∀ c : ComparisonCondition T,
      ComparisonCondition.construct valid v value ≠ .ok c := by
  constructor
  · simp [ComparisonCondition.construct, comparison_type_is_valid, h]
  · intro c
    simp [ComparisonCondition.construct, comparison_type_is_valid, h]

/-- Witness for C3: GREATER_THAN is outside the base ComparisonCondition
valid_comparisons set (the state-equality style set) and its construction
fails. -/
theorem comparison_condition_invalid_rejected_witness :
    ComparisonType.GREATER_THAN ∉ ComparisonCondition.valid_comparisons ∧
    ComparisonCondition.construct ComparisonCondition.valid_comparisons
      ComparisonType.GREATER_THAN (0 : Nat) =
      .error "can not perform comparison" :=
  ⟨by decide,
   (comparison_condition_invalid_rejected ComparisonCondition.valid_comparisons
     ComparisonType.GREATER_THAN 0 (by decide)).1⟩

/-- C1: for every registered Item variant and every instance (default
fields or populated extra_data), decoding the serialized bundle through the
Item factory yields a component structurally equal to the original. -/
theorem item_factory_roundtrip (c : ItemComponent) :
    FACTORY.get_instance c.bundle = some c := by
  obtain ⟨n, k, ed⟩ := c
  cases n <;> cases ed <;> rfl

/-- C2 (code bug demonstration): GithubUtils.get succeeds the first time
for a repo, but a second call with the same repo name evaluates the
GithubUtils constructor eagerly (setdefault argument), whose assert sees
the repo already cached and raises AssertionError instead of returning the
cached instance. -/
theorem githubutils_get_second_call_raises :
    GithubUtils.get [] "owner/repo" 0 = .ok ([("owner/repo", 0)], 0) ∧
    GithubUtils.get [("owner/repo", 0)] "owner/repo" 1 =
      .error "AssertionError" :=
  ⟨rfl, rfl⟩

/-- C4: the Item factory is complete: the registered key set equals the
ItemName enum exactly, every registered class's declared name equals its
registration key, and every custom component name carries the reserved
"custom/" namespace and resolves to a class whose declared name matches the
remainder of the name. -/
theorem item_factory_complete :
    FACTORY.get_components = Finset.univ ∧
    (∀ n : ItemName, ∃ cls, FACTORY.get_class n = some cls ∧ cls.name = n) ∧
    (∀ (customMap : List CustomComponent) (nm : String),
      nm ∈ FACTORY.get_custom_components customMap →
        (∃ rest, nm = "custom/" ++ rest) ∧
        ∃ c, FACTORY.get_custom_class customMap nm = some c ∧
          "custom/" ++ c.name = nm) := by
  refine ⟨by decide, ?_, ?_⟩
  · intro n
    cases n
    · exact ⟨ItemClass.FileItemCls, rfl, rfl⟩
    · exact ⟨ItemClass.ItemCls, rfl, rfl⟩
  · intro customMap nm hnm
    rw [FACTORY.get_custom_components, List.mem_map] at hnm
    obtain ⟨c0, hc0, rfl⟩ := hnm
    refine ⟨⟨c0.name, rfl⟩, ?_⟩
    have hsome : (FACTORY.get_custom_class customMap
        ("custom/" ++ c0.name)).isSome := by
      rw [FACTORY.get_custom_class, List.find?_isSome]
      exact ⟨c0, hc0, by simp⟩
    obtain ⟨c1, hc1⟩ := Option.isSome_iff_exists.mp hsome
    refine ⟨c1, hc1, ?_⟩
    have := List.find?_some hc1
    simpa using this

/-- Witness for C4: a one-element custom map registers the namespaced name
"custom/acme", which carries the reserved namespace and resolves back to
the class named acme. -/
theorem item_factory_complete_witness :
    "custom/acme" ∈ FACTORY.get_custom_components [⟨"acme"⟩] ∧
    (∃ rest, "custom/acme" = "custom/" ++ rest) ∧
    ∃ c, FACTORY.get_custom_class [⟨"acme"⟩] "custom/acme" = some c ∧
      "custom/" ++ c.name = "custom/acme" := by
  have hmem : "custom/acme" ∈ FACTORY.get_custom_components [⟨"acme"⟩] := by
    decide
  have h := item_factory_complete.2.2 [⟨"acme"⟩] "custom/acme" hmem
  exact ⟨hmem, h.1, h.2⟩

/-- C5: the script-backed Input runs the process with its configured
timeout (the outcome depends only on the runner's behaviour at
self.timeout), and whenever the process exits nonzero, get_items fails with
CalledProcessError before any parsing and never returns a list of items. -/
theorem script_input_nonzero_exit_fails (inp : ScriptInput)
    (runProc : Nat → ProcResult) (rf : String)
    (parseItems : String → Option (List ItemComponent))
    (h : (runProc inp.timeout).returncode ≠ 0) :
    inp.get_items runProc rf parseItems = .error "CalledProcessError" ∧
    (∀ items, inp.get_items runProc rf parseItems ≠ .ok items) ∧
    (∀ runProc2 : Nat → ProcResult, runProc2 inp.timeout = runProc inp.timeout →
      inp.get_items runProc2 rf parseItems = inp.get_items runProc rf parseItems) := by
  refine ⟨?_, ?_, ?_⟩
  · simp [ScriptInput.get_items, ProcResult.check_returncode, h]
  · intro items
    simp [ScriptInput.get_items, ProcResult.check_returncode, h]
  · intro runProc2 heq
    simp [ScriptInput.get_items, heq]

/-- Witness for C5: a process exiting with return code 1 makes get_items
fail with CalledProcessError. -/
theorem script_input_nonzero_exit_fails_witness :
    ((fun _ => (⟨1, "", ""⟩ : ProcResult)) (5 : Nat)).returncode ≠ 0 ∧
    ScriptInput.get_items ⟨5, false⟩ (fun _ => ⟨1, "", ""⟩) ""
      (fun _ => none) = .error "CalledProcessError" :=
  ⟨by decide,
   (script_input_nonzero_exit_fails ⟨5, false⟩ (fun _ => ⟨1, "", ""⟩) ""
     (fun _ => none) (by decide)).1⟩

/-- C9: create_workflow_dispatch returns the first matching run's URL,
returns the empty string when no run matches, and an HTTPError from either
host-API call degrades to an absent (None) result instead of raising. -/
theorem create_workflow_dispatch_best_effort :
    (∀ runs : ApiOutcome (List WorkflowRun),
      GithubUtils.create_workflow_dispatch .httpError runs = none) ∧
    GithubUtils.create_workflow_dispatch (.ok ()) .httpError = none ∧
    GithubUtils.create_workflow_dispatch (.ok ()) (.ok []) = some "" ∧
    (∀ (r : WorkflowRun) (rest : List WorkflowRun),
      GithubUtils.create_workflow_dispatch (.ok ()) (.ok (r :: rest)) =
        some r.html_url) :=
  ⟨fun _ => rfl, rfl, rfl, fun _ _ => rfl⟩

/-- Fuel-indexed specification of the polling loop: it exits no earlier
than it starts, within one second past the deadline, only once the runner
is finished or the deadline has been exceeded, and at the earliest time at
which that exit condition holds. -/
theorem poll_loop_spec (f : Nat → Bool) (dl : Nat) :
    ∀ n t, dl + 1 - t ≤ n →
      t ≤ poll_loop f dl t ∧
      poll_loop f dl t ≤ max t (dl + 1) ∧
      (f (poll_loop f dl t) = true ∨ dl < poll_loop f dl t) ∧
      (∀ u, t ≤ u → u < poll_loop f dl t → f u = false ∧ u ≤ dl) := by
  intro n
  induction n with
  | zero =>
    intro t ht
    have hguard : ¬ (¬ f t = true ∧ t ≤ dl) := by
      intro hc
      obtain ⟨-, h2⟩ := hc
      omega
    rw [poll_loop, if_neg hguard]
    refine ⟨le_refl t, le_max_left t (dl + 1), Or.inr (by omega), ?_⟩
    intro u hu hult
    omega
  | succ n ih =>
    intro t ht
    by_cases hguard : ¬ f t = true ∧ t ≤ dl
    · rw [poll_loop, if_pos hguard]
      have hrec := ih (t + 1) (by omega)
      refine ⟨by omega, by omega, hrec.2.2.1, ?_⟩
      intro u hu hult
      rcases Nat.eq_or_lt_of_le hu with rfl | hlt
      · exact ⟨by simpa using hguard.1, hguard.2⟩
      · exact hrec.2.2.2 u hlt hult
    · rw [poll_loop, if_neg hguard]
      refine ⟨le_refl t, le_max_left t (dl + 1), ?_, ?_⟩
      · by_cases hf : f t = true
        · exact Or.inl hf
        · rcases Nat.lt_or_ge dl t with hgt | hle
          · exact Or.inr hgt
          · exact absurd ⟨hf, hle⟩ hguard
      · intro u hu hult
        omega

/-- C6: the codemod CLI run always terminates: the polling loop exits at
the first time at which the Runner reports finished or the fixed 30-second
budget is exceeded (so within 31 seconds of the start), and Runner.kill()
is invoked on every path once the loop exits. -/
theorem codemod_run_terminates (f : Nat → Bool) (s : Nat) :
    (codemod_run f s).killed = true ∧
    s ≤ (codemod_run f s).exit_time ∧
    (codemod_run f s).exit_time ≤ s + 31 ∧
    (f ((codemod_run f s).exit_time) = true ∨
      s + 30 < (codemod_run f s).exit_time) ∧
    (∀ u, s ≤ u → u < (codemod_run f s).exit_time →
      f u = false ∧ u ≤ s + 30) := by
  have h := poll_loop_spec f (s + 30) (s + 31) s (by omega)
  have hkill : (codemod_run f s).killed = true := rfl
  have hexit : (codemod_run f s).exit_time = poll_loop f (s + 30) s := rfl
  rw [hexit]
  refine ⟨hkill, h.1, ?_, h.2.2.1, h.2.2.2⟩
  have h2 := h.2.1
  omega

/-- Witness for C6: with a runner that never reports finished, the loop
still exits (past the deadline), kill() is invoked, and at second 0 the
run was still inside its budget. -/
theorem codemod_run_terminates_witness :
    (codemod_run (fun _ => false) 0).killed = true ∧
    ((fun _ => false) (0 : Nat) = false ∧ (0 : Nat) ≤ 0 + 30) := by
  have h := codemod_run_terminates (fun _ => false) 0
  have hexit : 0 + 30 < (codemod_run (fun _ => false) 0).exit_time := by
    rcases h.2.2.2.1 with hf | hgt
    · exact absurd hf (by simp)
    · exact hgt
  exact ⟨h.1, h.2.2.2.2 0 (by omega) (by omega)⟩

/-- C7: InputFactory.get on a bundle whose type is not a registered
InputType fails at decode time with KeyError and never yields an Input
instance. -/
theorem input_factory_unregistered_fails (b : InputBundle)
    (h : b.type ∉ InputFactory.getters.map Prod.fst) :
    InputFactory.get b = .error "KeyError" ∧
    ∀ inst, InputFactory.get b ≠ .ok inst := by
  obtain ⟨ty, params⟩ := b
  cases ty with
  | DIRECTORY => exact absurd (by simp [InputFactory.getters]) h
  | SCRIPT =>
    refine ⟨rfl, ?_⟩
    intro inst hinst
    exact Except.noConfusion hinst

/-- Witness for C7: SCRIPT is not registered in the getters map, and
decoding a SCRIPT bundle fails with KeyError. -/
theorem input_factory_unregistered_fails_witness :
    InputType.SCRIPT ∉ InputFactory.getters.map Prod.fst ∧
    InputFactory.get ⟨InputType.SCRIPT, []⟩ = .error "KeyError" :=
  ⟨by decide,
   (input_factory_unregistered_fails ⟨InputType.SCRIPT, []⟩ (by decide)).1⟩

/-- C10: when --extensions is supplied and any dot-prefixed entry is not a
known Extensions value, main aborts with AssertionError before any
discovery or filtering happens; when --extensions is omitted, no filter is
added and every discovered item passes through. -/
theorem codemod_extensions_check (known : List String)
    (entries : List String) (discovered : List String)
    (h : ∃ e ∈ entries.map (fun e => "." ++ e),
      Extensions.has_value known e = false) :
    codemod_discover known (some entries) discovered =
      .error "AssertionError" ∧
    codemod_discover known none discovered = .ok discovered := by
  constructor
  · obtain ⟨e, he, hv⟩ := h
    have hall : (entries.map (fun e => "." ++ e)).all
        (fun e => Extensions.has_value known e) = false := by
      rw [List.all_eq_false]
      exact ⟨e, he, by simp [hv]⟩
    simp [codemod_discover, build_extension_filters, hall]
  · simp [codemod_discover, build_extension_filters, apply_filters]

/-- Witness for C10: with only ".py" known, the entry "txt" (prefixed to
".txt") fails the assert; with --extensions omitted, the discovered item
list passes through unchanged. -/
theorem codemod_extensions_check_witness :
    (∃ e ∈ (["txt"].map (fun e => "." ++ e)),
      Extensions.has_value [".py"] e = false) ∧
    codemod_discover [".py"] (some ["txt"]) ["a.py"] =
      .error "AssertionError" ∧
    codemod_discover [".py"] none ["a.py"] = .ok ["a.py"] := by
  have hex : ∃ e ∈ (["txt"].map (fun e => "." ++ e)),
      Extensions.has_value [".py"] e = false := ⟨".txt", by decide, by decide⟩
  have h := codemod_extensions_check [".py"] ["txt"] ["a.py"] hex
  exact ⟨hex, h.1, h.2⟩
